import Mathlib

/-
Verification development for avm-version-check (main.go).

The program scans a CSV of Terraform module repositories, clones each one,
extracts required provider version constraints, checks the configured floor
versions (azurerm 4.0.0, azapi 2.0.0) against the declared constraint
expressions, records last-commit metadata, and summarizes the outcomes.

Shallow embedding conventions:
* External effects (git clone, tfconfig module loading, git log) are supplied
  per work item by an `ItemEnv` oracle recording what each external call would
  return; the control flow around those calls is translated from main.go.
* Machine integers are modelled as `Int`/`Nat`; Unix instants as `Int` seconds.
* String processing is carried out on `List Char` (structural recursion, so
  every definition is kernel-computable); `String` is kept at the interfaces.
* A Go `map[string]bool` is modelled as an association list with
  overwrite-on-insert (`mapInsert`) and first-match lookup (`mapLookup`);
  only lookup and insert are used by the program.
* The RFC3339 timestamp string stored in `Result.LastCommitDate` is modelled
  by the epoch instant it denotes (`Option Int`, `none` for the empty string):
  the program writes it with `time.Unix(epoch,0).Format(RFC3339)` and reads it
  back with `time.Parse(RFC3339, ...)`, an identity round trip on instants.
-/

namespace AVM

/-! ### String helpers -/

/-- `List`-level substring containment: some suffix of `l` has `pat` as a
prefix. Mirrors Go `strings.Contains` (which is true for the empty pattern). -/
def listContainsSub (pat : List Char) : List Char → Bool
  | [] => pat.isEmpty
  | a :: rest => List.isPrefixOf pat (a :: rest) || listContainsSub pat rest

/-- Go `strings.Contains(s, pat)`. -/
def strContains (s pat : String) : Bool :=
  listContainsSub pat.toList s.toList

/-- Split on a (single-character) separator, as Go `strings.Split` does. -/
def splitOnChar (sep : Char) : List Char → List (List Char)
  | [] => [[]]
  | c :: rest =>
    let r := splitOnChar sep rest
    if c == sep then [] :: r
    else
      match r with
      | [] => [[c]]
      | h :: t => (c :: h) :: t

/-- Go `strings.TrimSpace`. -/
def trimChars (l : List Char) : List Char :=
  ((l.dropWhile Char.isWhitespace).reverse.dropWhile Char.isWhitespace).reverse

/-! ### Model of the external hashicorp/go-version library

`checkVersionConstraints` (main.go lines 171-181) delegates to the external
`github.com/hashicorp/go-version` library. The library is modelled here:
versions are a list of dot-separated numeric segments (padded to at least 3,
with the specified segment count `si` retained) plus a prerelease tag;
constraints are comma-separated `(operator, version)` pairs. Simplifications
(documented, not exercised by any claim): the prerelease grammar is
approximated by a character-set check, and prerelease precedence is
approximated by string order; build metadata after `+` is ignored. -/

def digitsVal (l : List Char) : Nat :=
  l.foldl (fun n c => n * 10 + (c.toNat - 48)) 0

def isDigits (l : List Char) : Bool :=
  !l.isEmpty && l.all Char.isDigit

def parseSegments (l : List Char) : Option (List Nat) :=
  let parts := splitOnChar '.' l
  if parts.all isDigits then some (parts.map digitsVal) else none

def preCharOk (c : Char) : Bool :=
  c.isAlphanum || c = '.' || c = '-' || c = '~'

/-- A parsed version: segments padded to at least 3 entries, the number of
segments as written (`si`), and the prerelease tag (`[]` if none). -/
structure GoVersion where
  segments : List Nat
  si : Nat
  pre : List Char
deriving Repr, DecidableEq

def pad3 (l : List Nat) : List Nat :=
  l ++ List.replicate (3 - l.length) 0

/-- go-version `NewVersion` on a character list: optional leading `v`,
dot-separated numeric segments, optional `-prerelease` (metadata after `+`
dropped). -/
def parseVersionL (l : List Char) : Option GoVersion :=
  let l1 := match l with
    | 'v' :: rest => rest
    | _ => l
  let l2 := (splitOnChar '+' l1).headD l1
  let parts := splitOnChar '-' l2
  let core := parts.headD []
  let pre := List.intercalate ['-'] parts.tail
  match parseSegments core with
  | none => none
  | some segs =>
    if pre.all preCharOk then some ⟨pad3 segs, segs.length, pre⟩ else none

def parseVersion (s : String) : Option GoVersion :=
  parseVersionL s.toList

def lexCompare : List Nat → List Nat → Ordering
  | [], [] => .eq
  | [], _ :: _ => .lt
  | _ :: _, [] => .gt
  | a :: al, b :: bl =>
    if a < b then .lt else if b < a then .gt else lexCompare al bl

/-- Segment comparison with zero extension (go-version `Compare` pads the
shorter segment list with zeros). -/
def segCompare (a b : List Nat) : Ordering :=
  let n := max a.length b.length
  lexCompare (a ++ List.replicate (n - a.length) 0) (b ++ List.replicate (n - b.length) 0)

/-- Prerelease precedence: a release sorts above any prerelease; two distinct
prereleases are ordered (simplification) by character-list order. -/
def preCompare (a b : List Char) : Ordering :=
  if a == b then .eq
  else if a.isEmpty then .gt
  else if b.isEmpty then .lt
  else compare a b

def versionCompare (v w : GoVersion) : Ordering :=
  match segCompare v.segments w.segments with
  | .eq => preCompare v.pre w.pre
  | o => o

/-- go-version `prereleaseCheck`: a prerelease constraint only matches a
prerelease version with identical segments; a release constraint never
matches a prerelease version. -/
def prereleaseCheck (v c : GoVersion) : Bool :=
  if !c.pre.isEmpty && !v.pre.isEmpty then v.segments == c.segments
  else if c.pre.isEmpty && !v.pre.isEmpty then false
  else true

/-- go-version `constraintPessimistic` (the `~>` operator). -/
def constraintPessimistic (v c : GoVersion) : Bool :=
  if !prereleaseCheck v c || (!c.pre.isEmpty && v.pre.isEmpty) then false
  else if versionCompare v c == .lt then false
  else if c.segments.length > v.segments.length then false
  else if !((List.range (c.si - 1)).all
      (fun i => v.segments.getD i 0 == c.segments.getD i 0)) then false
  else if c.segments.getD (c.si - 1) 0 > v.segments.getD (c.si - 1) 0 then false
  else true

inductive ConstraintOp where
  | eq | neq | gt | lt | ge | le | pessimistic
deriving Repr, DecidableEq

structure GoConstraint where
  op : ConstraintOp
  check : GoVersion
deriving Repr, DecidableEq

def constraintCheck (c : GoConstraint) (v : GoVersion) : Bool :=
  match c.op with
  | .eq => versionCompare v c.check == .eq
  | .neq => !(versionCompare v c.check == .eq)
  | .gt => prereleaseCheck v c.check && versionCompare v c.check == .gt
  | .lt => prereleaseCheck v c.check && versionCompare v c.check == .lt
  | .ge => prereleaseCheck v c.check && !(versionCompare v c.check == .lt)
  | .le => prereleaseCheck v c.check && !(versionCompare v c.check == .gt)
  | .pessimistic => constraintPessimistic v c.check

/-- Strip a leading constraint operator; a bare version means equality. -/
def parseOpL (l : List Char) : ConstraintOp × List Char :=
  match l with
  | '>' :: '=' :: rest => (.ge, rest)
  | '<' :: '=' :: rest => (.le, rest)
  | '~' :: '>' :: rest => (.pessimistic, rest)
  | '!' :: '=' :: rest => (.neq, rest)
  | '>' :: rest => (.gt, rest)
  | '<' :: rest => (.lt, rest)
  | '=' :: rest => (.eq, rest)
  | _ => (.eq, l)

def parseSingle (l : List Char) : Option GoConstraint :=
  let p := parseOpL (trimChars l)
  match parseVersionL (trimChars p.2) with
  | some v => some ⟨p.1, v⟩
  | none => none

/-- go-version `NewConstraint`: comma-separated constraints, all must parse. -/
def parseConstraint (s : String) : Option (List GoConstraint) :=
  (splitOnChar ',' s.toList).mapM parseSingle

/-- A version satisfies a constraint set when it satisfies every member. -/
def constraintsCheck (cs : List GoConstraint) (v : GoVersion) : Bool :=
  cs.all (fun c => constraintCheck c v)

/-- main.go `checkVersionConstraints`: parse the candidate version (the
configured floor), parse the declared constraint expression, and check the
candidate against the constraint. -/
def checkVersionConstraints (currentProviderVersion constraint : String) :
    Except String Bool :=
  match parseVersion currentProviderVersion with
  | none =>
    .error ("failed to parse version '" ++ currentProviderVersion ++
      "': Malformed version: " ++ currentProviderVersion)
  | some ver =>
    match parseConstraint constraint with
    | none =>
      .error ("failed to parse constraint '" ++ constraint ++
        "': Malformed constraint: " ++ constraint)
    | some cs => .ok (constraintsCheck cs ver)

/-! ### Data model (main.go lines 31-67) -/

/-- One row of the input CSV (main.go `CSVRecord`). All fields are opaque
pass-through strings; only `repoURL` is consumed by the pipeline. -/
structure CSVRecord where
  providerNamespace : String
  resourceType : String
  moduleDisplayName : String
  alternativeNames : String
  moduleName : String
  moduleStatus : String
  repoURL : String
  publicRegistryReference : String
  telemetryIdPrefixField : String
  primaryModuleOwnerGHHandle : String
  primaryModuleOwnerDisplayName : String
  secondaryModuleOwnerGHHandle : String
  secondaryModuleOwnerDisplayName : String
  moduleOwnersGHTeam : String
  moduleContributorsGHTeam : String
  description : String
  comments : String
  firstPublishedIn : String
deriving Repr, DecidableEq

/-- main.go `ProviderVersion`: one required-provider constraint entry. -/
structure ProviderVersion where
  providerName : String
  version : String
deriving Repr, DecidableEq

/-- main.go `Result`. `compatibility` models the Go `map[string]bool` as an
association list (`[]` for the nil map), and `lastCommitDate` models the
RFC3339 string by the epoch instant it denotes (`none` for `""`). -/
structure Result where
  record : CSVRecord
  providers : List ProviderVersion
  compatibility : List (String × Bool)
  lastCommitDate : Option Int
  lastCommitAuthor : String
  error : String
deriving Repr, DecidableEq

/-- Go map write `m[k] = v`: overwrite the entry if the key is present,
otherwise add it. -/
def mapInsert (m : List (String × Bool)) (k : String) (v : Bool) :
    List (String × Bool) :=
  if m.any (fun p => p.1 == k) then m.map (fun p => if p.1 == k then (k, v) else p)
  else m ++ [(k, v)]

/-- Go map read `m[k]`. -/
def mapLookup (m : List (String × Bool)) (k : String) : Option Bool :=
  match m.find? (fun p => p.1 == k) with
  | some p => some p.2
  | none => none

/-- The fixed tracked-provider configuration (main.go `providersToCheck`).
Only lookup is performed on it, so the association list is a faithful model
of the Go map. -/
def providersToCheck : List (String × String) :=
  [("azurerm", "4.0.0"), ("azapi", "2.0.0")]

def cfgLookup (cfg : List (String × String)) (k : String) : Option String :=
  match cfg.find? (fun p => p.1 == k) with
  | some p => some p.2
  | none => none

/-! ### Per-item external environment

`processRecord` calls three external operations: `git clone` (via
`cloneRepo`), `tfconfig.LoadModule` (via `parseTerraformModule`) and
`git log` (via `getLastCommitInfo`). Their results are supplied by an
oracle per work item; the surrounding control flow is translated verbatim. -/

/-- What one invocation of `cloneRepo` encounters: `os.MkdirTemp` fails
before any directory exists, or the fresh directory `dir` is created and the
`git clone` subprocess fails (message `msg`), or the clone succeeds. -/
inductive CloneAttempt where
  | mkdirFail (msg : String)
  | gitFail (dir msg : String)
  | ok (dir : String)
deriving Repr, DecidableEq

def CloneAttempt.isFail : CloneAttempt → Bool
  | .ok _ => false
  | _ => true

/-- The error message `cloneRepo` reports for a failed attempt. -/
def CloneAttempt.errMsg : CloneAttempt → String
  | .mkdirFail msg => msg
  | .gitFail _ msg => "git clone failed: " ++ msg
  | .ok _ => ""

/-- Oracle for one work item: the three clone attempts the retry loop may
make, the outcome of loading the Terraform module at the cloned path, and
the outcome of reading the last commit (epoch seconds and author). -/
structure ItemEnv where
  attempt1 : CloneAttempt
  attempt2 : CloneAttempt
  attempt3 : CloneAttempt
  parse : Except String (List ProviderVersion)
  commit : Except String (Int × String)
deriving Repr

/-- Observable side effects of processing one item: warning log lines,
2-second sleeps performed, scratch directories created and removed. -/
structure ProcEffects where
  warnings : List String
  sleeps : Nat
  created : List String
  removed : List String
deriving Repr, DecidableEq

def ProcEffects.empty : ProcEffects := ⟨[], 0, [], []⟩

/-- main.go `cloneRepo` (lines 137-150): make a fresh temp directory, run a
shallow `git clone` into it; on clone failure remove the directory before
returning. Returns the result together with (created, removed) scratch
directories. -/
def cloneRepo (a : CloneAttempt) (repoURL : String) :
    Except String String × List String × List String :=
  match a with
  | .mkdirFail msg => (.error msg, [], [])
  | .gitFail dir msg => (.error ("git clone failed: " ++ msg), [dir], [dir])
  | .ok dir => (.ok dir, [dir], [])

def warnClone (attempt : Nat) (url msg : String) : String :=
  "[WARN] Attempt " ++ toString attempt ++ ": Failed to clone repo '" ++ url ++
    "': " ++ msg

/-- The retry loop of `processRecord` (main.go lines 211-221): up to the
given attempts; break on success; on failure log a warning (unless quiet)
and sleep 2 seconds, then try again if attempts remain. Note the sleep runs
after every failed attempt, including the last one. -/
def cloneRetry (url : String) (quiet : Bool) :
    List CloneAttempt → Nat → ProcEffects → Except String String × ProcEffects
  | [], _, eff => (.error "", eff)
  | a :: rest, attempt, eff =>
    match cloneRepo a url with
    | (.ok dir, cr, rm) =>
      (.ok dir, { eff with created := eff.created ++ cr, removed := eff.removed ++ rm })
    | (.error e, cr, rm) =>
      let eff' : ProcEffects :=
        { warnings := if quiet then eff.warnings else eff.warnings ++ [warnClone attempt url e]
          sleeps := eff.sleeps + 1
          created := eff.created ++ cr
          removed := eff.removed ++ rm }
      if rest.isEmpty then (.error e, eff')
      else cloneRetry url quiet rest (attempt + 1) eff'

/-- The constraint-checking loop of `processRecord` (main.go lines 238-247):
for each extracted provider that is tracked, evaluate the configured floor
against the declared expression; store the boolean in the map; on evaluator
error stop and report the per-provider error (the map keeps the entries
stored so far). Returns the map and the error, if any. -/
def checkLoop : List ProviderVersion → List (String × Bool) →
    List (String × Bool) × Option String
  | [], m => (m, none)
  | p :: rest, m =>
    match cfgLookup providersToCheck p.providerName with
    | none => checkLoop rest m
    | some floor =>
      match checkVersionConstraints floor p.version with
      | .error e =>
        (m, some ("failed to check version constraints for provider '" ++
          p.providerName ++ "': " ++ e))
      | .ok valid => checkLoop rest (mapInsert m p.providerName valid)

/-- main.go `processRecord` (lines 204-262): clone with up to 3 retries;
on total clone failure set a clone-tagged error and return. Otherwise the
scratch directory is removed when the invocation ends (`defer`), modelled by
appending it to `removed` on every return path. Then parse the module
(parse-tagged error on failure), run the constraint loop (stop on evaluator
error, keeping the partial map), and finally read the last commit info; a
failure there only appends to the error text and leaves date/author empty. -/
def processRecord (env : ItemEnv) (record : CSVRecord) (quiet : Bool) :
    Result × ProcEffects :=
  let res : Result := ⟨record, [], [], none, "", ""⟩
  match cloneRetry record.repoURL quiet [env.attempt1, env.attempt2, env.attempt3] 1
      ProcEffects.empty with
  | (.error e, eff) =>
    ({ res with error := "failed to clone repo '" ++ record.repoURL ++ "': " ++ e },
     eff)
  | (.ok repoPath, eff) =>
    match env.parse with
    | .error e =>
      ({ res with error := "failed to parse Terraform module: " ++ e },
       { eff with removed := eff.removed ++ [repoPath] })
    | .ok providers =>
      let res := { res with providers := providers }
      match checkLoop providers [] with
      | (m, some e) =>
        ({ res with compatibility := m, error := e },
         { eff with removed := eff.removed ++ [repoPath] })
      | (m, none) =>
        let res := { res with compatibility := m }
        match env.commit with
        | .error e =>
          ({ res with
              error := res.error ++ (" | could not retrieve last commit info: " ++ e) },
           { eff with
              warnings := if quiet then eff.warnings
                else eff.warnings ++
                  ["[WARN] Could not retrieve last commit for '" ++ record.repoURL ++
                    "': " ++ e]
              removed := eff.removed ++ [repoPath] })
        | .ok (epoch, author) =>
          ({ res with lastCommitDate := some epoch, lastCommitAuthor := author },
           { eff with removed := eff.removed ++ [repoPath] })

/-! ### Dispatcher (main.go lines 451-500)

The `process` command enqueues all records on a channel buffered to hold the
whole list, starts `workerCount` goroutines that each repeatedly take a
record, run `processRecord` on it, and send the single resulting `Result` to
a buffered result channel; the collector stores each received result at the
next slot of an atomic completion counter. An execution is therefore
abstracted by its completion order: a permutation of the input records, with
the collected slice being the pipeline output in that order. -/

def dispatcherRun (envOf : CSVRecord → ItemEnv) (quiet : Bool)
    (completionOrder : List CSVRecord) : List Result :=
  completionOrder.map (fun r => (processRecord (envOf r) r quiet).1)

/-! ### Calendar arithmetic (Go `time.AddDate(0, -6, 0)`)

`summarizeResults` computes `now.AddDate(0, -6, 0)`. Go shifts the month by
-6 with floor normalization of the year, keeps the day-of-month and the
time-of-day, and renormalizes day overflow into the following month, on the
proleptic Gregorian calendar. Instants are epoch seconds (the run is
modelled in UTC). Civil-date conversions follow the standard era-based
algorithms. -/

/-- Days since 1970-01-01 of a civil date (day overflow rolls over, exactly
as Go `time.Date` normalizes it). -/
def daysFromCivil (y m d : Int) : Int :=
  let y' := if m ≤ 2 then y - 1 else y
  let era := y'.fdiv 400
  let yoe := y' - era * 400
  let mp := if m ≤ 2 then m + 9 else m - 3
  let doy := (153 * mp + 2).fdiv 5 + d - 1
  let doe := yoe * 365 + yoe.fdiv 4 - yoe.fdiv 100 + doy
  era * 146097 + doe - 719468

/-- Civil date (year, month, day) of a days-since-epoch count. -/
def civilFromDays (z : Int) : Int × Int × Int :=
  let z' := z + 719468
  let era := z'.fdiv 146097
  let doe := z' - era * 146097
  let yoe := (doe - doe.fdiv 1460 + doe.fdiv 36524 - doe.fdiv 146096).fdiv 365
  let y := yoe + era * 400
  let doy := doe - (365 * yoe + yoe.fdiv 4 - yoe.fdiv 100)
  let mp := (5 * doy + 2).fdiv 153
  let d := doy - (153 * mp + 2).fdiv 5 + 1
  let m := if mp < 10 then mp + 3 else mp - 9
  (if m ≤ 2 then y + 1 else y, m, d)

/-- Go `t.AddDate(0, months, 0)` on an epoch-seconds instant. -/
def addDateMonths (sec months : Int) : Int :=
  let days := sec.fdiv 86400
  let rem := sec - days * 86400
  let c := civilFromDays days
  let total := c.1 * 12 + (c.2.1 - 1) + months
  let y2 := total.fdiv 12
  let m2 := total - y2 * 12 + 1
  daysFromCivil y2 m2 c.2.2 * 86400 + rem

/-! ### Summarizer (main.go `summarizeResults`, lines 316-343) -/

/-- The loop body of `summarizeResults`, one pass accumulating the three
counters: unreachable (error text contains the clone tag), dormant
(non-empty last-commit date strictly before the six-months-ago mark), and
not compatible (azurerm or azapi present in the map and false). -/
def summarizeLoop (sixMonthsAgo : Int) :
    List Result → Nat → Nat → Nat → Nat × Nat × Nat
  | [], u, nc, d => (u, nc, d)
  | r :: rest, u, nc, d =>
    let u' := if strContains r.error "failed to clone repo" then u + 1 else u
    let d' := match r.lastCommitDate with
      | some t => if t < sixMonthsAgo then d + 1 else d
      | none => d
    let azurermBad := match mapLookup r.compatibility "azurerm" with
      | some b => !b
      | none => false
    let azapiBad := match mapLookup r.compatibility "azapi" with
      | some b => !b
      | none => false
    let nc' := if azurermBad || azapiBad then nc + 1 else nc
    summarizeLoop sixMonthsAgo rest u' nc' d'

/-- main.go `summarizeResults`: returns
(unreachableCount, notCompatibleCount, dormantCount) for an evaluation
instant `now`. -/
def summarizeResults (now : Int) (results : List Result) : Nat × Nat × Nat :=
  summarizeLoop (addDateMonths now (-6)) results 0 0 0

/-! ### Summary category predicates (for stating the claims) -/

/-- An outcome counts as unreachable: its error text contains the clone tag. -/
def unreachableB (r : Result) : Bool :=
  strContains r.error "failed to clone repo"

/-- An outcome counts as not compatible: some tracked provider is present in
its compatibility map with value false. -/
def notCompatibleB (r : Result) : Bool :=
  (match mapLookup r.compatibility "azurerm" with
    | some b => !b
    | none => false) ||
  (match mapLookup r.compatibility "azapi" with
    | some b => !b
    | none => false)

/-- An outcome counts as dormant: it has a last-commit instant strictly
before the six-months-ago mark. -/
def dormantB (sixMonthsAgo : Int) (r : Result) : Bool :=
  match r.lastCommitDate with
  | some t => decide (t < sixMonthsAgo)
  | none => false

/-! ### Helper lemmas -/

theorem listContainsSub_append (p l : List Char) :
    listContainsSub p (p ++ l) = true := by
  cases p with
  | nil =>
    cases l with
    | nil => rfl
    | cons c rest => simp [listContainsSub, List.isPrefixOf]
  | cons c rest =>
    show listContainsSub (c :: rest) (c :: (rest ++ l)) = true
    simp only [listContainsSub, Bool.or_eq_true]
    left
    rw [List.isPrefixOf_iff_prefix]
    exact List.prefix_append _ _

/-- If `pat` is a prefix of `s`, then `s ++ t` contains `pat`. -/
theorem strContains_append_of_prefix (pat s t : String)
    (h : pat.toList <+: s.toList) : strContains (s ++ t) pat = true := by
  obtain ⟨r, hr⟩ := h
  have h2 : (s ++ t).toList = pat.toList ++ (r ++ t.toList) := by
    simp only [String.toList] at hr ⊢
    have h3 : (s ++ t).data = s.data ++ t.data := by simp
    rw [h3, ← hr, List.append_assoc]
  rw [strContains, h2]
  exact listContainsSub_append _ _

/-- The clone-stage error message contains the clone tag that
`summarizeResults` scans for. -/
theorem strContains_clone_tag (url e : String) :
    strContains ("failed to clone repo '" ++ url ++ "': " ++ e)
      "failed to clone repo" = true := by
  have h1 : ("failed to clone repo '" : String) = "failed to clone repo" ++ " '" := rfl
  rw [h1, String.append_assoc, String.append_assoc]
  exact strContains_append_of_prefix _ _ _ ⟨" '".toList, by simp [String.toList]⟩

/-- Scratch-directory invariant of the retry loop: starting from a state
whose created and removed directories agree, a failed loop leaves them equal
and a successful loop leaves exactly the returned directory unremoved. -/
theorem cloneRetry_dirs (url : String) (quiet : Bool) :
    ∀ (attempts : List CloneAttempt) (attempt : Nat) (eff : ProcEffects),
      eff.created = eff.removed →
      (∀ d eff', cloneRetry url quiet attempts attempt eff = (.ok d, eff') →
        eff'.created = eff'.removed ++ [d]) ∧
      (∀ e eff', cloneRetry url quiet attempts attempt eff = (.error e, eff') →
        eff'.created = eff'.removed) := by
  intro attempts
  induction attempts with
  | nil =>
    intro attempt eff heq
    refine ⟨?_, ?_⟩
    · intro d eff' h
      simp [cloneRetry] at h
    · intro e eff' h
      rw [cloneRetry] at h
      obtain ⟨-, rfl⟩ := Prod.mk.injEq .. ▸ h
      exact heq
  | cons a rest ih =>
    intro attempt eff heq
    cases a with
    | ok dir =>
      refine ⟨?_, ?_⟩
      · intro d eff' h
        rw [cloneRetry] at h
        simp only [cloneRepo] at h
        obtain ⟨hd, rfl⟩ := Prod.mk.injEq .. ▸ h
        obtain rfl : dir = d := by simpa using hd
        simp [heq]
      · intro e eff' h
        rw [cloneRetry] at h
        simp [cloneRepo] at h
    | mkdirFail msg =>
      cases rest with
      | nil =>
        refine ⟨?_, ?_⟩
        · intro d eff' h
          rw [cloneRetry] at h
          simp [cloneRepo] at h
        · intro e eff' h
          rw [cloneRetry] at h
          simp only [cloneRepo, List.isEmpty] at h
          obtain ⟨-, rfl⟩ := Prod.mk.injEq .. ▸ h
          simpa using heq
      | cons b rest' =>
        have step :
            cloneRetry url quiet (CloneAttempt.mkdirFail msg :: b :: rest') attempt eff =
              cloneRetry url quiet (b :: rest') (attempt + 1)
                { warnings := if quiet then eff.warnings
                    else eff.warnings ++ [warnClone attempt url msg]
                  sleeps := eff.sleeps + 1
                  created := eff.created ++ []
                  removed := eff.removed ++ [] } := by
          rw [cloneRetry]; rfl
        have heq' :
            (ProcEffects.mk
              (if quiet then eff.warnings else eff.warnings ++ [warnClone attempt url msg])
              (eff.sleeps + 1) (eff.created ++ []) (eff.removed ++ [])).created =
            (ProcEffects.mk
              (if quiet then eff.warnings else eff.warnings ++ [warnClone attempt url msg])
              (eff.sleeps + 1) (eff.created ++ []) (eff.removed ++ [])).removed := by
          simpa using heq
        refine ⟨?_, ?_⟩
        · intro d eff' h
          rw [step] at h
          exact (ih (attempt + 1) _ heq').1 d eff' h
        · intro e eff' h
          rw [step] at h
          exact (ih (attempt + 1) _ heq').2 e eff' h
    | gitFail dir msg =>
      cases rest with
      | nil =>
        refine ⟨?_, ?_⟩
        · intro d eff' h
          rw [cloneRetry] at h
          simp [cloneRepo] at h
        · intro e eff' h
          rw [cloneRetry] at h
          simp only [cloneRepo, List.isEmpty] at h
          obtain ⟨-, rfl⟩ := Prod.mk.injEq .. ▸ h
          simpa using heq
      | cons b rest' =>
        have step :
            cloneRetry url quiet (CloneAttempt.gitFail dir msg :: b :: rest') attempt eff =
              cloneRetry url quiet (b :: rest') (attempt + 1)
                { warnings := if quiet then eff.warnings
                    else eff.warnings ++ [warnClone attempt url ("git clone failed: " ++ msg)]
                  sleeps := eff.sleeps + 1
                  created := eff.created ++ [dir]
                  removed := eff.removed ++ [dir] } := by
          rw [cloneRetry]; rfl
        have heq' :
            (ProcEffects.mk
              (if quiet then eff.warnings
                else eff.warnings ++ [warnClone attempt url ("git clone failed: " ++ msg)])
              (eff.sleeps + 1) (eff.created ++ [dir]) (eff.removed ++ [dir])).created =
            (ProcEffects.mk
              (if quiet then eff.warnings
                else eff.warnings ++ [warnClone attempt url ("git clone failed: " ++ msg)])
              (eff.sleeps + 1) (eff.created ++ [dir]) (eff.removed ++ [dir])).removed := by
          simpa using heq
        refine ⟨?_, ?_⟩
        · intro d eff' h
          rw [step] at h
          exact (ih (attempt + 1) _ heq').1 d eff' h
        · intro e eff' h
          rw [step] at h
          exact (ih (attempt + 1) _ heq').2 e eff' h

/-- Counter step: bumping an accumulator on a condition commutes with
counting the tail. -/
theorem count_step (b : Bool) (u c : Nat) :
    (if b = true then u + 1 else u) + c = u + (c + if b = true then 1 else 0) := by
  cases b <;> simp <;> omega

/-- Counter step for the dormant branch (match on the optional date, then a
strict comparison). -/
theorem dormant_step (o : Option Int) (sma : Int) (d c : Nat) :
    (match o with
      | some t => if t < sma then d + 1 else d
      | none => d) + c =
    d + (c + if (match o with
      | some t => decide (t < sma)
      | none => false) = true then 1 else 0) := by
  rcases o with - | t
  · simp
  · by_cases ht : t < sma <;> simp [ht] <;> omega

/-- One pass of the summarizing loop computes the three counts
independently: unfolds to three `countP` scans. -/
theorem summarizeLoop_eq (sma : Int) :
    ∀ (results : List Result) (u nc d : Nat),
      summarizeLoop sma results u nc d =
        (u + results.countP unreachableB,
         nc + results.countP notCompatibleB,
         d + results.countP (dormantB sma)) := by
  intro results
  induction results with
  | nil => intro u nc d; simp [summarizeLoop]
  | cons r rest ih =>
    intro u nc d
    simp only [summarizeLoop]
    rw [ih]
    simp only [List.countP_cons, unreachableB, notCompatibleB, dormantB, Prod.mk.injEq]
    exact ⟨count_step _ _ _, count_step _ _ _, dormant_step _ _ _ _⟩

/-- The not-compatible test of `summarizeResults` fires exactly when some
tracked provider appears in the compatibility map with value `false`. -/
theorem notCompatibleB_iff (r : Result) :
    notCompatibleB r = true ↔
      ∃ name, (cfgLookup providersToCheck name).isSome ∧
        mapLookup r.compatibility name = some false := by
  constructor
  · intro h
    simp only [notCompatibleB, Bool.or_eq_true] at h
    rcases h with h | h
    · refine ⟨"azurerm", by decide, ?_⟩
      rcases hm : mapLookup r.compatibility "azurerm" with - | b
      · rw [hm] at h; simp at h
      · rw [hm] at h
        cases b
        · rfl
        · simp at h
    · refine ⟨"azapi", by decide, ?_⟩
      rcases hm : mapLookup r.compatibility "azapi" with - | b
      · rw [hm] at h; simp at h
      · rw [hm] at h
        cases b
        · rfl
        · simp at h
  · rintro ⟨name, hsome, hfalse⟩
    have hname : name = "azurerm" ∨ name = "azapi" := by
      by_cases h1 : name = "azurerm"
      · exact Or.inl h1
      by_cases h2 : name = "azapi"
      · exact Or.inr h2
      exfalso
      have e1 : (("azurerm" : String) == name) = false := by
        simp [Ne.symm h1]
      have e2 : (("azapi" : String) == name) = false := by
        simp [Ne.symm h2]
      simp [cfgLookup, providersToCheck, List.find?, e1, e2] at hsome
    simp only [notCompatibleB, Bool.or_eq_true]
    rcases hname with rfl | rfl
    · left; rw [hfalse]; rfl
    · right; rw [hfalse]; rfl

/-! ### Concrete sample inputs used by the witnesses -/

def sampleRecord : CSVRecord :=
  ⟨"", "", "", "", "", "", "https://example.invalid/repo.git", "", "", "", "", "",
   "", "", "", "", "", ""⟩

def sampleEnv : ItemEnv :=
  ⟨.gitFail "/tmp/repo-1" "exit status 128", .gitFail "/tmp/repo-2" "exit status 128",
   .gitFail "/tmp/repo-3" "exit status 128", .error "no module", .error "no commits"⟩

/-! ### Claim theorems -/

/-- C1: for every input list of N work items and every worker count ≥ 1,
the Dispatcher's run (abstracted by the completion order, a permutation of
the input queue) returns exactly N Outcomes, and the collection is exactly
the per-item pipeline outcome of each work item, once each. -/
theorem dispatcher_one_outcome_per_item (envOf : CSVRecord → ItemEnv) (quiet : Bool)
    (workerCount : Nat) (records completionOrder : List CSVRecord)
    (hw : 1 ≤ workerCount) (hperm : completionOrder.Perm records) :
    (dispatcherRun envOf quiet completionOrder).length = records.length ∧
    (dispatcherRun envOf quiet completionOrder).Perm
      (records.map (fun r => (processRecord (envOf r) r quiet).1)) := by
  refine ⟨?_, ?_⟩
  · simpa [dispatcherRun] using hperm.length_eq
  · simpa [dispatcherRun] using hperm.map (fun r => (processRecord (envOf r) r quiet).1)

theorem dispatcher_one_outcome_per_item_witness :
    1 ≤ 1 ∧
    ((dispatcherRun (fun _ => sampleEnv) false [sampleRecord]).length =
        [sampleRecord].length ∧
      (dispatcherRun (fun _ => sampleEnv) false [sampleRecord]).Perm
        ([sampleRecord].map
          (fun r => (processRecord ((fun _ => sampleEnv) r) r false).1))) :=
  ⟨Nat.le_refl 1,
   dispatcher_one_outcome_per_item (fun _ => sampleEnv) false 1 [sampleRecord]
     [sampleRecord] (Nat.le_refl 1) (List.Perm.refl _)⟩

/-- C2: the Constraint Evaluator checks the configured floor version as the
candidate against the declared constraint expression (not the reverse):
floor "4.0.0" satisfies ">=4.0.0", does not satisfy "~>3.0", and an invalid
expression yields an error; and for a tracked provider the pipeline stores
exactly the result of evaluating the configured floor against the declared
expression. -/
theorem constraint_evaluator_polarity :
    checkVersionConstraints "4.0.0" ">=4.0.0" = .ok true ∧
    checkVersionConstraints "4.0.0" "~>3.0" = .ok false ∧
    checkVersionConstraints "4.0.0" "not-a-version" =
      .error "failed to parse constraint 'not-a-version': Malformed constraint: not-a-version" ∧
    ∀ (env : ItemEnv) (record : CSVRecord) (quiet : Bool) (dir : String)
      (eff : ProcEffects) (expr : String) (b : Bool),
      cloneRetry record.repoURL quiet [env.attempt1, env.attempt2, env.attempt3] 1
        ProcEffects.empty = (.ok dir, eff) →
      env.parse = .ok [⟨"azurerm", expr⟩] →
      checkVersionConstraints "4.0.0" expr = .ok b →
      mapLookup (processRecord env record quiet).1.compatibility "azurerm" = some b := by
  refine ⟨rfl, rfl, rfl, ?_⟩
  intro env record quiet dir eff expr b hclone hparse hcheck
  have hcfg : cfgLookup providersToCheck "azurerm" = some "4.0.0" := rfl
  simp only [processRecord, hclone, hparse, checkLoop, hcfg, hcheck]
  rcases env.commit with e | ⟨epoch, author⟩ <;>
    simp [mapInsert, mapLookup]

def c2Env : ItemEnv :=
  ⟨.ok "/tmp/repo-c2", .ok "/tmp/unused", .ok "/tmp/unused",
   .ok [⟨"azurerm", ">=4.0.0"⟩], .ok (1700000000, "alice")⟩

theorem constraint_evaluator_polarity_witness :
    mapLookup (processRecord c2Env sampleRecord false).1.compatibility "azurerm" =
      some true :=
  constraint_evaluator_polarity.2.2.2 c2Env sampleRecord false "/tmp/repo-c2"
    ⟨[], 0, ["/tmp/repo-c2"], []⟩ ">=4.0.0" true rfl rfl rfl

def c3Env : ItemEnv :=
  ⟨.gitFail "/tmp/repo-a" "exit status 128", .gitFail "/tmp/repo-b" "exit status 128",
   .gitFail "/tmp/repo-c" "exit status 128", .error "unused", .error "unused"⟩

/-- C3 counterexample: when all three acquisition attempts fail the pipeline
sleeps three times, not only between attempts — with sleeps only between the
3 attempts there would be at most 2. -/
theorem clone_retry_sleep_counterexample :
    (processRecord c3Env sampleRecord false).2.sleeps = 3 ∧
    ¬((processRecord c3Env sampleRecord false).2.sleeps ≤ 2) := by
  exact ⟨rfl, by decide⟩

/-- C3 (amended): the Item Pipeline attempts acquisition at most 3 times,
sleeping a fixed 2-second interval after every failed attempt, including the
final one (three sleeps when all attempts fail); emits one warning per
failed attempt when not quiet (and none when quiet); and after exhausting
all 3 attempts sets the Outcome's error to a clone-stage-tagged message and
returns with no further stages run. -/
theorem clone_retry_policy (env : ItemEnv) (record : CSVRecord) (quiet : Bool)
    (h1 : env.attempt1.isFail = true) (h2 : env.attempt2.isFail = true)
    (h3 : env.attempt3.isFail = true) :
    (processRecord env record quiet).2.sleeps = 3 ∧
    (processRecord env record quiet).2.warnings.length = (if quiet then 0 else 3) ∧
    (processRecord env record quiet).1.error =
      "failed to clone repo '" ++ record.repoURL ++ "': " ++ env.attempt3.errMsg ∧
    (processRecord env record quiet).1.providers = [] ∧
    (processRecord env record quiet).1.compatibility = [] ∧
    (processRecord env record quiet).1.lastCommitDate = none ∧
    (processRecord env record quiet).1.lastCommitAuthor = "" := by
  obtain ⟨a1, a2, a3, hp, hc⟩ := env
  cases a1 <;> cases a2 <;> cases a3 <;>
    simp_all [CloneAttempt.isFail, CloneAttempt.errMsg, processRecord, cloneRetry,
      cloneRepo, warnClone, ProcEffects.empty] <;>
    cases quiet <;> simp [ProcEffects.empty]

theorem clone_retry_policy_witness :
    (processRecord c3Env sampleRecord true).2.sleeps = 3 ∧
    (processRecord c3Env sampleRecord true).2.warnings.length = (if true then 0 else 3) ∧
    (processRecord c3Env sampleRecord true).1.error =
      "failed to clone repo '" ++ sampleRecord.repoURL ++ "': " ++
        c3Env.attempt3.errMsg ∧
    (processRecord c3Env sampleRecord true).1.providers = [] ∧
    (processRecord c3Env sampleRecord true).1.compatibility = [] ∧
    (processRecord c3Env sampleRecord true).1.lastCommitDate = none ∧
    (processRecord c3Env sampleRecord true).1.lastCommitAuthor = "" :=
  clone_retry_policy c3Env sampleRecord true rfl rfl rfl

/-- C4: an Outcome for an item whose acquisition failed on all 3 attempts
contains no provider requirement entries, no compatibility entries, no
last-commit timestamp or author, and an error tagged as a clone-stage
failure. -/
theorem acquisition_failure_outcome (env : ItemEnv) (record : CSVRecord)
    (quiet : Bool) (h1 : env.attempt1.isFail = true)
    (h2 : env.attempt2.isFail = true) (h3 : env.attempt3.isFail = true) :
    (processRecord env record quiet).1.providers = [] ∧
    (processRecord env record quiet).1.compatibility = [] ∧
    (processRecord env record quiet).1.lastCommitDate = none ∧
    (processRecord env record quiet).1.lastCommitAuthor = "" ∧
    strContains (processRecord env record quiet).1.error
      "failed to clone repo" = true := by
  obtain ⟨a1, a2, a3, hp, hc⟩ := env
  cases a1 <;> cases a2 <;> cases a3 <;>
    simp_all [CloneAttempt.isFail, processRecord, cloneRetry, cloneRepo, warnClone,
      ProcEffects.empty] <;>
    exact strContains_clone_tag _ _

def c4Env : ItemEnv :=
  ⟨.mkdirFail "permission denied", .mkdirFail "permission denied",
   .gitFail "/tmp/repo-d" "exit status 128", .error "unused", .error "unused"⟩

theorem acquisition_failure_outcome_witness :
    (processRecord c4Env sampleRecord false).1.providers = [] ∧
    (processRecord c4Env sampleRecord false).1.compatibility = [] ∧
    (processRecord c4Env sampleRecord false).1.lastCommitDate = none ∧
    (processRecord c4Env sampleRecord false).1.lastCommitAuthor = "" ∧
    strContains (processRecord c4Env sampleRecord false).1.error
      "failed to clone repo" = true :=
  acquisition_failure_outcome c4Env sampleRecord false rfl rfl rfl

/-- C5: when the Activity Inspector fails after earlier stages succeeded,
the item is not aborted: the descriptive suffix is appended to the (here
empty) existing error text, timestamp and author are left empty, and the
already-extracted provider list and compatibility map remain populated. -/
theorem inspection_failure_nonfatal (env : ItemEnv) (record : CSVRecord)
    (quiet : Bool) (dir : String) (eff : ProcEffects)
    (ps : List ProviderVersion) (m : List (String × Bool)) (e : String)
    (hclone : cloneRetry record.repoURL quiet
      [env.attempt1, env.attempt2, env.attempt3] 1 ProcEffects.empty = (.ok dir, eff))
    (hparse : env.parse = .ok ps)
    (hloop : checkLoop ps [] = (m, none))
    (hcommit : env.commit = .error e) :
    (processRecord env record quiet).1 =
      ⟨record, ps, m, none, "", "" ++ (" | could not retrieve last commit info: " ++ e)⟩ := by
  simp [processRecord, hclone, hparse, hloop, hcommit]

def c5Env : ItemEnv :=
  ⟨.ok "/tmp/repo-c5", .ok "/tmp/unused", .ok "/tmp/unused",
   .ok [⟨"azurerm", ">=4.0.0"⟩], .error "failed to get last commit: exit status 128"⟩

theorem inspection_failure_nonfatal_witness :
    (processRecord c5Env sampleRecord true).1 =
      ⟨sampleRecord, [⟨"azurerm", ">=4.0.0"⟩], [("azurerm", true)], none, "",
       "" ++ (" | could not retrieve last commit info: " ++
         "failed to get last commit: exit status 128")⟩ :=
  inspection_failure_nonfatal c5Env sampleRecord true "/tmp/repo-c5"
    ⟨[], 0, ["/tmp/repo-c5"], []⟩ [⟨"azurerm", ">=4.0.0"⟩] [("azurerm", true)]
    "failed to get last commit: exit status 128" rfl rfl rfl rfl

/-- C6: the Summarizer classifies an outcome as dormant exactly when it has
a non-empty last-activity instant strictly before the six-months-ago mark:
an instant one day after `now` minus 6 months (i.e. exactly 6 months minus
one day before `now`) is not dormant, one day before that mark (6 months and
one day before `now`) is dormant, and in general the dormant count is the
count of outcomes with a non-empty date strictly older than the mark. -/
theorem dormant_six_month_boundary :
    (∀ (now : Int) (rec : CSVRecord) (ps : List ProviderVersion)
       (compat : List (String × Bool)) (author err : String),
       (summarizeResults now
         [⟨rec, ps, compat, some (addDateMonths now (-6) + 86400), author, err⟩]).2.2 = 0 ∧
       (summarizeResults now
         [⟨rec, ps, compat, some (addDateMonths now (-6) - 86400), author, err⟩]).2.2 = 1) ∧
    (∀ (now : Int) (results : List Result),
       (summarizeResults now results).2.2 =
         results.countP (dormantB (addDateMonths now (-6)))) := by
  have hloop : ∀ (now : Int) (results : List Result),
      (summarizeResults now results).2.2 =
        results.countP (dormantB (addDateMonths now (-6))) := by
    intro now results
    rw [summarizeResults, summarizeLoop_eq]
    simp
  refine ⟨?_, hloop⟩
  intro now rec ps compat author err
  rw [hloop, hloop]
  constructor
  · simp only [List.countP_cons, List.countP_nil, dormantB]
    simp
  · simp only [List.countP_cons, List.countP_nil, dormantB]
    simp

/-- C7: no scratch location survives an item's pipeline invocation: on a
failed clone attempt the partially-created directory is removed before
`cloneRepo` returns, and over the whole of `processRecord` the removed
scratch directories are exactly the created ones, whatever the outcome. -/
theorem scratch_cleanup :
    (∀ (d msg url : String),
       cloneRepo (.gitFail d msg) url =
         (.error ("git clone failed: " ++ msg), [d], [d])) ∧
    (∀ (env : ItemEnv) (record : CSVRecord) (quiet : Bool),
       (processRecord env record quiet).2.removed =
         (processRecord env record quiet).2.created) := by
  refine ⟨fun d msg url => rfl, ?_⟩
  intro env record quiet
  have hbase := cloneRetry_dirs record.repoURL quiet
    [env.attempt1, env.attempt2, env.attempt3] 1 ProcEffects.empty rfl
  rcases hcr : cloneRetry record.repoURL quiet
      [env.attempt1, env.attempt2, env.attempt3] 1 ProcEffects.empty with ⟨res, eff⟩
  cases res with
  | error e =>
    have h := hbase.2 e eff hcr
    simp [processRecord, hcr, h]
  | ok d =>
    have h := hbase.1 d eff hcr
    rcases hp : env.parse with pe | ps
    · simp [processRecord, hcr, hp, h]
    · rcases hcl : checkLoop ps [] with ⟨m, oe⟩
      rcases oe with - | e
      · rcases hcm : env.commit with ce | ⟨epoch, author⟩ <;>
          simp [processRecord, hcr, hp, hcl, hcm, h]
      · simp [processRecord, hcr, hp, hcl, h]

def overlapResult : Result :=
  ⟨sampleRecord, [], [("azurerm", false)], some 0, "a",
   "failed to clone repo 'u': x"⟩

/-- C8: the Summarizer computes the three counts independently over the
outcome collection — an outcome counts as unreachable exactly when its error
text carries the clone tag, and as not compatible exactly when its
compatibility map sends some tracked provider to `false` — and one outcome
may count toward several categories at once (the concrete `overlapResult`
counts in all three). -/
theorem summary_counts_independent :
    (∀ (now : Int) (results : List Result),
       summarizeResults now results =
         (results.countP unreachableB, results.countP notCompatibleB,
          results.countP (dormantB (addDateMonths now (-6))))) ∧
    (∀ r : Result, notCompatibleB r = true ↔
       ∃ name, (cfgLookup providersToCheck name).isSome ∧
         mapLookup r.compatibility name = some false) ∧
    summarizeResults 1700000000 [overlapResult] = (1, 1, 1) := by
  refine ⟨?_, notCompatibleB_iff, ?_⟩
  · intro now results
    rw [summarizeResults, summarizeLoop_eq]
    simp
  · decide

def c9Env : ItemEnv :=
  ⟨.ok "/tmp/repo-c9", .ok "/tmp/unused", .ok "/tmp/unused",
   .ok [⟨"azurerm", "<4.0.0"⟩, ⟨"azurerm", ">=4.0.0"⟩], .ok (1700000000, "alice")⟩

/-- C9: when a tracked provider declares two constraint expressions, the
stored compatibility entry for that name is the evaluation result of the
last-processed expression (each evaluation overwrites the previous one); in
the concrete instance the first expression evaluates to `false` yet the map
records `true`, so the map does not record the conjunction of the declared
expressions. -/
theorem compliance_last_write_wins :
    (∀ (env : ItemEnv) (record : CSVRecord) (quiet : Bool) (dir : String)
       (eff : ProcEffects) (name floor e1 e2 : String) (v1 v2 : Bool),
       cloneRetry record.repoURL quiet [env.attempt1, env.attempt2, env.attempt3] 1
         ProcEffects.empty = (.ok dir, eff) →
       env.parse = .ok [⟨name, e1⟩, ⟨name, e2⟩] →
       cfgLookup providersToCheck name = some floor →
       checkVersionConstraints floor e1 = .ok v1 →
       checkVersionConstraints floor e2 = .ok v2 →
       mapLookup (processRecord env record quiet).1.compatibility name = some v2) ∧
    (checkVersionConstraints "4.0.0" "<4.0.0" = .ok false ∧
     checkVersionConstraints "4.0.0" ">=4.0.0" = .ok true ∧
     mapLookup (processRecord c9Env sampleRecord true).1.compatibility "azurerm" =
       some true) := by
  refine ⟨?_, rfl, rfl, rfl⟩
  intro env record quiet dir eff name floor e1 e2 v1 v2 hclone hparse hcfg hv1 hv2
  simp only [processRecord, hclone, hparse, checkLoop, hcfg, hv1, hv2]
  rcases env.commit with e | ⟨epoch, author⟩ <;>
    simp [mapInsert, mapLookup]

theorem compliance_last_write_wins_witness :
    mapLookup (processRecord c9Env sampleRecord true).1.compatibility "azurerm" =
      some true :=
  compliance_last_write_wins.1 c9Env sampleRecord true "/tmp/repo-c9"
    ⟨[], 0, ["/tmp/repo-c9"], []⟩ "azurerm" "4.0.0" "<4.0.0" ">=4.0.0" false true
    rfl rfl rfl rfl rfl

/-- C10: when the Constraint Evaluator fails on some tracked provider's
expression, the returned Outcome carries the evaluation-stage error together
with the full extracted provider list and the compatibility entries stored
before the failure — the partial map is not cleared. -/
theorem evaluator_failure_keeps_partial (env : ItemEnv) (record : CSVRecord)
    (quiet : Bool) (dir : String) (eff : ProcEffects)
    (ps : List ProviderVersion) (m : List (String × Bool)) (e : String)
    (hclone : cloneRetry record.repoURL quiet
      [env.attempt1, env.attempt2, env.attempt3] 1 ProcEffects.empty = (.ok dir, eff))
    (hparse : env.parse = .ok ps)
    (hloop : checkLoop ps [] = (m, some e)) :
    (processRecord env record quiet).1 = ⟨record, ps, m, none, "", e⟩ := by
  simp [processRecord, hclone, hparse, hloop]

def c10Env : ItemEnv :=
  ⟨.ok "/tmp/repo-c10", .ok "/tmp/unused", .ok "/tmp/unused",
   .ok [⟨"azurerm", ">=4.0.0"⟩, ⟨"azapi", "not-a-version"⟩], .ok (1700000000, "alice")⟩

theorem evaluator_failure_keeps_partial_witness :
    (processRecord c10Env sampleRecord true).1 =
      ⟨sampleRecord, [⟨"azurerm", ">=4.0.0"⟩, ⟨"azapi", "not-a-version"⟩],
       [("azurerm", true)], none, "",
       "failed to check version constraints for provider 'azapi': " ++
         ("failed to parse constraint 'not-a-version': Malformed constraint: " ++
           "not-a-version")⟩ :=
  evaluator_failure_keeps_partial c10Env sampleRecord true "/tmp/repo-c10"
    ⟨[], 0, ["/tmp/repo-c10"], []⟩
    [⟨"azurerm", ">=4.0.0"⟩, ⟨"azapi", "not-a-version"⟩] [("azurerm", true)]
    ("failed to check version constraints for provider 'azapi': " ++
      ("failed to parse constraint 'not-a-version': Malformed constraint: " ++
        "not-a-version")) rfl rfl rfl

end AVM
